/-
  Verification of the orchestration layer of the clothing product
  recommendation chatbot (src/main.py).

  The program wires three conversational agents (preference collector,
  catalog retriever, recommendation composer) into one pipeline run per
  user input line.  The external multi-agent runtime, the language model
  and the vector database are opaque capabilities; they are modelled
  here as oracle functions supplied in a `FlowEnv`.  The pure string
  manipulation of the source (`is_termination_message`,
  `extract_preferences_from_messages`, `get_last_message_content`) is
  translated directly, with Python strings embedded as `List Char` and
  Python `str.split` embedded as `pySplitOn` (left-to-right,
  non-overlapping separator scan, as CPython implements it).
-/
import Mathlib

/-! ### Python string primitives on `List Char` -/

/-- `stripPrefixQ p s` is `some r` when `s = p ++ r`, else `none`
    (prefix test used by the substring scan). -/
def stripPrefixQ : List Char → List Char → Option (List Char)
  | [], s => some s
  | _ :: _, [] => none
  | a :: p, b :: s => if a = b then stripPrefixQ p s else none

/-- `containsSub p s` is Python `p in s`: does `p` occur as a contiguous
    substring of `s`? -/
def containsSub (p : List Char) : List Char → Bool
  | [] => (stripPrefixQ p []).isSome
  | c :: s => (stripPrefixQ p (c :: s)).isSome || containsSub p s

/-- Fuelled worker for Python `str.split(sep)` with a non-empty separator:
    scan left to right, consume non-overlapping occurrences of `sep`,
    return the chunks between them.  `fuel = s.length + 1` always
    suffices. -/
def pySplitF (sep : List Char) : Nat → List Char → List (List Char)
  | 0, s => [s]
  | Nat.succ fuel, s =>
    match stripPrefixQ sep s with
    | some r => [] :: pySplitF sep fuel r
    | none =>
      match s with
      | [] => [[]]
      | c :: rest =>
        match pySplitF sep fuel rest with
        | [] => [[c]]
        | chunk :: more => (c :: chunk) :: more

/-- Python `s.split(sep)` for a non-empty `sep` (the source only splits on a
    fixed non-empty literal; CPython raises on an empty separator, rendered
    here as the identity chunking). -/
def pySplitOn (sep s : List Char) : List (List Char) :=
  if sep = [] then [s] else pySplitF sep (s.length + 1) s

/-- Python `l[-1]` on the (never empty) result of `split`. -/
def pyLast : List (List Char) → List Char
  | [] => []
  | [x] => x
  | _ :: y :: t => pyLast (y :: t)

/-- Python `str.upper`, character by character (the source strings are
    ASCII). -/
def pyUpper (s : List Char) : List Char := s.map Char.toUpper

/-- Python `str.lower`, character by character. -/
def pyLower (s : List Char) : List Char := s.map Char.toLower

/-- Python `str.isspace` membership for one character: the ASCII whitespace
    characters stripped by `str.strip()`. -/
def pyIsSpaceChar (c : Char) : Bool :=
  c = ' ' || c = '\t' || c = '\n' || c = '\x0b' || c = '\x0c' || c = '\r'

/-- Python `str.strip()`: drop leading and trailing whitespace. -/
def pyStrip (s : List Char) : List Char :=
  ((s.dropWhile pyIsSpaceChar).reverse.dropWhile pyIsSpaceChar).reverse

/-! ### String literals of the source -/

/-- The case-insensitive termination marker of `is_termination_message`. -/
def TERMINATION_MARKER : List Char := "CHECKING PRODUCTS BASED ON".data

/-- The detection literal of `extract_preferences_from_messages`
    (colon, no trailing space). -/
def DETECT_MARKER : List Char := "CHECKING PRODUCTS BASED ON:".data

/-- The split literal of `extract_preferences_from_messages`
    (colon and trailing space). -/
def SPLIT_MARKER : List Char := "CHECKING PRODUCTS BASED ON: ".data

def UNABLE_MSG : List Char := "Unable to fetch user preferences.".data

def NO_PRODUCTS_MSG : List Char := "No products retrieved.".data

def ERR_LABEL : List Char := "An error occurred during the recommendation flow: ".data

def USER_PREFS_LABEL : List Char := "User preferences: ".data

def RETRIEVED_LABEL : List Char := "Retrieved products: ".data

def NL_RETRIEVED_LABEL : List Char := "\nRetrieved products: ".data

def RETRIEVAL_PROBLEM_LABEL : List Char := "Retrieve products matching these preferences: ".data

/-- `print("Final Product Recommendations:\n", x)` joins its two arguments
    with one space, hence the trailing blank. -/
def FINAL_LABEL : List Char := "Final Product Recommendations:\n ".data

def NO_RECS_MSG : List Char := "No recommendations found.".data

def GOODBYE_MSG : List Char := "Goodbye!".data

def REPROMPT_MSG : List Char := "Please enter your preferences.".data

def EXIT_KW : List Char := "exit".data

def QUIT_KW : List Char := "quit".data

/-! ### Data model -/

/-- One conversation message.  Python messages are dicts; the source only
    reads the `content` key, with `msg.get("content", "")` defaulting to the
    empty string, so a message is its optional content. -/
structure ChatMessage where
  content : Option (List Char)
  deriving DecidableEq

/-- `message.get("content", "")`. -/
def msgContent (m : ChatMessage) : List Char := m.content.getD []

/-- The result object of `initiate_chat`: the source only reads
    `result.chat_history`. -/
structure ChatResult where
  chat_history : List ChatMessage
  deriving DecidableEq

/-! ### The pure helper functions of src/main.py -/

/-- `is_termination_message(msg)` :
    `"CHECKING PRODUCTS BASED ON" in msg.get("content", "").upper()`. -/
def is_termination_message (m : ChatMessage) : Bool :=
  containsSub TERMINATION_MARKER (pyUpper (msgContent m))

/-- `extract_preferences_from_messages(messages)` : scan for the first
    message whose content contains `"CHECKING PRODUCTS BASED ON:"` and
    return `content.split("CHECKING PRODUCTS BASED ON: ")[-1]`; `None`
    when no message matches. -/
def extract_preferences_from_messages : List ChatMessage → Option (List Char)
  | [] => none
  | m :: ms =>
    if containsSub DETECT_MARKER (msgContent m) then
      some (pyLast (pySplitOn SPLIT_MARKER (msgContent m)))
    else
      extract_preferences_from_messages ms

/-- `get_last_message_content(result)` :
    `result.chat_history[-1].get('content', '') if result and result.chat_history else None`. -/
def get_last_message_content : Option ChatResult → Option (List Char)
  | none => none
  | some res =>
    match res.chat_history.getLast? with
    | none => none
    | some m => some (m.content.getD [])

/-! ### The pipeline coordinator -/

/-- A Python exception value, reduced to its message text. -/
abbrev PyErr := List Char

/-- Observable events of one pipeline run, in order. -/
inductive Event where
  | resetCalled
  | collectorCalled (message : List Char)
  | retrieverCalled (problem : List Char)
  | composerCalled (message : List Char)
  | printed (line : List Char)
  deriving DecidableEq

/-- The opaque external capabilities used by one pipeline run.
    `collectorExchange` stands for `assistant.initiate_chat(...)` followed
    by reading `group_chat_manager.groupchat.messages`; the other two stand
    for the retriever and composer `initiate_chat` calls returning a chat
    result object (possibly `None`).  Each may raise, and `resetOutcome`
    lets `reset_agents` raise as well; all of this happens inside the
    `try` of `groupchat_product_recommendation_flow`. -/
structure FlowEnv where
  collectorExchange : List Char → Except PyErr (List ChatMessage)
  retrieverExchange : List Char → Except PyErr (Option ChatResult)
  composerExchange : List Char → Except PyErr (Option ChatResult)
  resetOutcome : Option PyErr

/-- The `try` body of `groupchat_product_recommendation_flow`: the events
    it produces, paired with the exception it raises (if any). -/
def flowBody (env : FlowEnv) (user_input : List Char) : List Event × Option PyErr :=
  match env.resetOutcome with
  | some e => ([Event.resetCalled], some e)
  | none =>
    match env.collectorExchange user_input with
    | Except.error e => ([Event.resetCalled, Event.collectorCalled user_input], some e)
    | Except.ok msgs =>
      match extract_preferences_from_messages msgs with
      | none =>
        ([Event.resetCalled, Event.collectorCalled user_input,
          Event.printed UNABLE_MSG], none)
      | some [] =>
        ([Event.resetCalled, Event.collectorCalled user_input,
          Event.printed UNABLE_MSG], none)
      | some (c :: cs) =>
        let p := c :: cs
        let prefsEvents := [Event.resetCalled, Event.collectorCalled user_input,
          Event.printed (USER_PREFS_LABEL ++ p)]
        let problem := RETRIEVAL_PROBLEM_LABEL ++ p
        match env.retrieverExchange problem with
        | Except.error e => (prefsEvents ++ [Event.retrieverCalled problem], some e)
        | Except.ok rag_result =>
          match get_last_message_content rag_result with
          | none =>
            (prefsEvents ++ [Event.retrieverCalled problem,
              Event.printed NO_PRODUCTS_MSG], none)
          | some [] =>
            (prefsEvents ++ [Event.retrieverCalled problem,
              Event.printed NO_PRODUCTS_MSG], none)
          | some (d :: ds) =>
            let retrieved := d :: ds
            let retrEvents := prefsEvents ++ [Event.retrieverCalled problem,
              Event.printed (RETRIEVED_LABEL ++ retrieved)]
            let formatting := USER_PREFS_LABEL ++ p ++ NL_RETRIEVED_LABEL ++ retrieved
            match env.composerExchange formatting with
            | Except.error e => (retrEvents ++ [Event.composerCalled formatting], some e)
            | Except.ok final_result =>
              let recText :=
                match get_last_message_content final_result with
                | none => NO_RECS_MSG
                | some [] => NO_RECS_MSG
                | some (r :: rs) => r :: rs
              (retrEvents ++ [Event.composerCalled formatting,
                Event.printed (FINAL_LABEL ++ recText)], none)

/-- `groupchat_product_recommendation_flow(user_input, ...)`: the `try`
    body, with every raised exception caught and reported by the
    `except Exception` clause. -/
def groupchat_product_recommendation_flow (env : FlowEnv) (user_input : List Char) :
    List Event :=
  match flowBody env user_input with
  | (events, none) => events
  | (events, some e) => events ++ [Event.printed (ERR_LABEL ++ e)]

/-! ### The session loop -/

/-- Observable events of the session loop in `main()`. -/
inductive SessEvent where
  | printedS (line : List Char)
  | flowRun (user_input : List Char) (events : List Event)
  deriving DecidableEq

/-- The `while True` loop of `main()`, driven by the list of stdin lines:
    `user_input = input("You: ").strip()`; break on case-insensitive
    `exit`/`quit`; re-prompt on empty input; otherwise run the pipeline
    once for the line. -/
def main_loop (env : FlowEnv) : List (List Char) → List SessEvent
  | [] => []
  | line :: rest =>
    let user_input := pyStrip line
    if pyLower user_input = EXIT_KW ∨ pyLower user_input = QUIT_KW then
      [SessEvent.printedS GOODBYE_MSG]
    else if user_input = [] then
      SessEvent.printedS REPROMPT_MSG :: main_loop env rest
    else
      SessEvent.flowRun user_input (groupchat_product_recommendation_flow env user_input) ::
        main_loop env rest

/-- How many pipeline runs a session event list contains. -/
def flowRunCount : List SessEvent → Nat
  | [] => 0
  | SessEvent.flowRun _ _ :: rest => flowRunCount rest + 1
  | SessEvent.printedS _ :: rest => flowRunCount rest

/-! ### Concrete environments and inputs used by witnesses -/

/-- An environment whose stages all succeed trivially. -/
def env0 : FlowEnv where
  collectorExchange := fun _ => Except.ok []
  retrieverExchange := fun _ => Except.ok none
  composerExchange := fun _ => Except.ok none
  resetOutcome := none

def helloContent : List Char := "hello".data

/-- An environment whose collector exchange yields one marker-free message. -/
def env3 : FlowEnv where
  collectorExchange := fun _ => Except.ok [ChatMessage.mk (some helloContent)]
  retrieverExchange := fun _ => Except.ok none
  composerExchange := fun _ => Except.ok none
  resetOutcome := none

def markerShirtContent : List Char := "CHECKING PRODUCTS BASED ON: [shirt]".data

def shirtPrefs : List Char := "[shirt]".data

/-- An environment whose collector produces a marker message but whose
    retriever exchange yields an absent chat result. -/
def env4 : FlowEnv where
  collectorExchange := fun _ => Except.ok [ChatMessage.mk (some markerShirtContent)]
  retrieverExchange := fun _ => Except.ok none
  composerExchange := fun _ => Except.ok none
  resetOutcome := none

def boomMsg : List Char := "boom".data

/-- An environment whose `reset_agents` call raises. -/
def env5 : FlowEnv where
  collectorExchange := fun _ => Except.ok []
  retrieverExchange := fun _ => Except.ok none
  composerExchange := fun _ => Except.ok none
  resetOutcome := some boomMsg

def hiLine : List Char := "hi".data

def helloLine : List Char := "hello".data

def paddedQuitLine : List Char := "  QUIT  ".data

def blankLine : List Char := " ".data

def threeBlanksLine : List Char := "   ".data

def twoBlanks : List Char := "  ".data

def oneBlank : List Char := " ".data

def quitMixedCase : List Char := "QuIt".data

/-- Content with two occurrences of the split marker: the text after the
    first occurrence differs from the text after the last. -/
def doubleMarkerContent : List Char :=
  "CHECKING PRODUCTS BASED ON: A CHECKING PRODUCTS BASED ON: B".data

def c1msg : ChatMessage := ChatMessage.mk (some doubleMarkerContent)

def afterFirstText : List Char := "A CHECKING PRODUCTS BASED ON: B".data

def afterLastText : List Char := "B".data

/-- Content containing the detection literal (colon) but not the split
    literal (colon plus space). -/
def noSpaceMarkerContent : List Char := "CHECKING PRODUCTS BASED ON:[shirt]".data

def c8msg : ChatMessage := ChatMessage.mk (some noSpaceMarkerContent)

/-! ### Lemmas about the substring scan -/

theorem stripPrefixQ_eq_some {p : List Char} : ∀ {s r : List Char},
    stripPrefixQ p s = some r ↔ s = p ++ r := by
  induction p with
  | nil =>
    intro s r
    simp [stripPrefixQ]
  | cons a p ih =>
    intro s r
    cases s with
    | nil => simp [stripPrefixQ]
    | cons b s =>
      by_cases hab : a = b
      · subst hab
        simp [stripPrefixQ, ih]
      · simp [stripPrefixQ, hab]
        intro h
        exact fun _ => hab h.symm

theorem stripPrefixQ_length {p s r : List Char} (h : stripPrefixQ p s = some r) :
    s.length = p.length + r.length := by
  rw [stripPrefixQ_eq_some] at h
  subst h
  simp

theorem containsSub_iff {p : List Char} : ∀ {s : List Char},
    containsSub p s = true ↔ ∃ pre post, s = pre ++ p ++ post := by
  intro s
  induction s with
  | nil =>
    simp [containsSub, Option.isSome_iff_exists, stripPrefixQ_eq_some]
  | cons c s ih =>
    simp only [containsSub, Bool.or_eq_true, ih, Option.isSome_iff_exists,
      stripPrefixQ_eq_some]
    constructor
    · rintro (⟨r, hr⟩ | ⟨pre, post, h⟩)
      · exact ⟨[], r, by simpa using hr⟩
      · exact ⟨c :: pre, post, by simp [h]⟩
    · rintro ⟨pre, post, h⟩
      cases pre with
      | nil => exact Or.inl ⟨post, by simpa using h⟩
      | cons d pre =>
        simp only [List.cons_append, List.cons.injEq] at h
        exact Or.inr ⟨pre, post, h.2⟩

theorem pySplitF_ne_nil (sep : List Char) (fuel : Nat) (s : List Char) :
    pySplitF sep fuel s ≠ [] := by
  cases fuel with
  | zero => simp [pySplitF]
  | succ f =>
    simp only [pySplitF]
    split
    · simp
    · split
      · simp
      · split
        · simp
        · simp

theorem pyLast_cons_ne (x : List Char) {t : List (List Char)} (h : t ≠ []) :
    pyLast (x :: t) = pyLast t := by
  cases t with
  | nil => exact absurd rfl h
  | cons y t => rfl

/-- When the separator does not occur in `s`, the split is the whole
    string in one chunk. -/
theorem pySplitF_no_occurrence (sep : List Char) :
    ∀ fuel s, s.length < fuel → containsSub sep s = false →
      pySplitF sep fuel s = [s] := by
  intro fuel
  induction fuel with
  | zero =>
    intro s h
    exact absurd h (Nat.not_lt_zero _)
  | succ f ih =>
    intro s hlen hcon
    cases s with
    | nil =>
      have hsp : stripPrefixQ sep [] = none := by
        cases h : stripPrefixQ sep [] with
        | none => rfl
        | some r => simp [containsSub, h] at hcon
      simp [pySplitF, hsp]
    | cons c rest =>
      simp only [containsSub, Bool.or_eq_false_iff] at hcon
      have hsp : stripPrefixQ sep (c :: rest) = none := by
        cases h : stripPrefixQ sep (c :: rest) with
        | none => rfl
        | some r => rw [h] at hcon; simp at hcon
      have hrest : pySplitF sep f rest = [rest] := by
        refine ih rest ?_ hcon.2
        simp only [List.length_cons] at hlen
        omega
      simp [pySplitF, hsp, hrest]

/-- When the separator occurs in `s`, the split has at least two chunks
    and its final chunk is the text after the final consumed occurrence:
    `s` decomposes as `pre ++ sep ++ lastChunk` with no occurrence of the
    separator inside the last chunk. -/
theorem pySplitF_last_spec (sep : List Char) (hsep : sep ≠ []) :
    ∀ fuel s, s.length < fuel → containsSub sep s = true →
      2 ≤ (pySplitF sep fuel s).length ∧
      ∃ pre, s = pre ++ sep ++ pyLast (pySplitF sep fuel s) ∧
        containsSub sep (pyLast (pySplitF sep fuel s)) = false := by
  intro fuel
  induction fuel with
  | zero =>
    intro s h
    exact absurd h (Nat.not_lt_zero _)
  | succ f ih =>
    intro s hlen hcon
    cases hsp : stripPrefixQ sep s with
    | some r =>
      have hsr : s = sep ++ r := stripPrefixQ_eq_some.mp hsp
      have hrlen : r.length < f := by
        have hl := stripPrefixQ_length hsp
        cases sep with
        | nil => exact absurd rfl hsep
        | cons a p =>
          simp only [List.length_cons] at hl
          omega
      have hne := pySplitF_ne_nil sep f r
      simp only [pySplitF, hsp]
      rw [pyLast_cons_ne [] hne]
      by_cases hcr : containsSub sep r = true
      · obtain ⟨hlen2, pre', hdec, hlast⟩ := ih r hrlen hcr
        refine ⟨?_, sep ++ pre', ?_, hlast⟩
        · simp only [List.length_cons]
          omega
        · rw [hsr]
          conv_lhs => rw [hdec]
          simp [List.append_assoc]
      · have hcr' : containsSub sep r = false := by
          cases h : containsSub sep r with
          | false => rfl
          | true => exact absurd h hcr
        have hr1 : pySplitF sep f r = [r] := pySplitF_no_occurrence sep f r hrlen hcr'
        rw [hr1]
        refine ⟨by simp, [], ?_, hcr'⟩
        simpa using hsr
    | none =>
      cases s with
      | nil => simp [containsSub, hsp] at hcon
      | cons c rest =>
        simp only [containsSub, hsp, Option.isSome_none, Bool.false_or] at hcon
        have hrlen : rest.length < f := by
          simp only [List.length_cons] at hlen
          omega
        obtain ⟨hlen2, pre', hdec, hlast⟩ := ih rest hrlen hcon
        cases hps : pySplitF sep f rest with
        | nil => exact absurd hps (pySplitF_ne_nil sep f rest)
        | cons chunk more =>
          have hmore : more ≠ [] := by
            rw [hps] at hlen2
            simp only [List.length_cons] at hlen2
            intro hnil
            rw [hnil] at hlen2
            simp at hlen2
          rw [hps] at hdec hlast
          rw [pyLast_cons_ne chunk hmore] at hdec hlast
          simp only [pySplitF, hsp, hps]
          rw [pyLast_cons_ne (c :: chunk) hmore]
          refine ⟨?_, c :: pre', ?_, hlast⟩
          · have : 0 < more.length := List.length_pos.mpr hmore
            simp only [List.length_cons]
            omega
          · rw [List.cons_append, List.cons_append]
            rw [← hdec]

theorem pySplitOn_of_ne_nil {sep : List Char} (hsep : sep ≠ []) (s : List Char) :
    pySplitOn sep s = pySplitF sep (s.length + 1) s := by
  simp [pySplitOn, hsep]

/-! ### Lemmas about preference extraction -/

theorem extract_append_skip {before : List ChatMessage} (rest : List ChatMessage)
    (h : ∀ b ∈ before, containsSub DETECT_MARKER (msgContent b) = false) :
    extract_preferences_from_messages (before ++ rest) =
      extract_preferences_from_messages rest := by
  induction before with
  | nil => rfl
  | cons b bs ih =>
    have hb := h b (by simp)
    rw [List.cons_append]
    simp only [extract_preferences_from_messages, hb]
    simp only [Bool.false_eq_true, if_false]
    exact ih (fun x hx => h x (by simp [hx]))

theorem extract_eq_none {msgs : List ChatMessage}
    (h : ∀ m ∈ msgs, containsSub DETECT_MARKER (msgContent m) = false) :
    extract_preferences_from_messages msgs = none := by
  have := @extract_append_skip msgs [] h
  simpa using this

theorem extract_first_hit (before after : List ChatMessage) (m : ChatMessage)
    (hb : ∀ b ∈ before, containsSub DETECT_MARKER (msgContent b) = false)
    (hm : containsSub DETECT_MARKER (msgContent m) = true) :
    extract_preferences_from_messages (before ++ m :: after) =
      some (pyLast (pySplitOn SPLIT_MARKER (msgContent m))) := by
  rw [extract_append_skip (m :: after) hb]
  simp [extract_preferences_from_messages, hm]

/-- The split literal is the detection literal followed by one space. -/
theorem split_eq_detect_space : SPLIT_MARKER = DETECT_MARKER ++ [' '] := by decide

/-- A string containing the split literal also contains the detection
    literal. -/
theorem detect_of_split {s : List Char} (h : containsSub SPLIT_MARKER s = true) :
    containsSub DETECT_MARKER s = true := by
  rw [containsSub_iff] at h ⊢
  obtain ⟨pre, post, hdec⟩ := h
  refine ⟨pre, ' ' :: post, ?_⟩
  rw [hdec, split_eq_detect_space]
  simp

/-! ### Lemmas about whitespace stripping -/

theorem dropWhile_append_all {w t : List Char}
    (h : ∀ c ∈ w, pyIsSpaceChar c = true) :
    (w ++ t).dropWhile pyIsSpaceChar = t.dropWhile pyIsSpaceChar := by
  induction w with
  | nil => rfl
  | cons a w ih =>
    rw [List.cons_append, List.dropWhile_cons]
    simp only [h a (by simp)]
    simp only [if_true]
    exact ih (fun c hc => h c (by simp [hc]))

theorem dropWhile_cons_not {c : Char} (t : List Char) (hc : pyIsSpaceChar c = false) :
    (c :: t).dropWhile pyIsSpaceChar = c :: t := by
  rw [List.dropWhile_cons]
  simp [hc]

theorem pyStrip_all_space {l : List Char} (h : ∀ c ∈ l, pyIsSpaceChar c = true) :
    pyStrip l = [] := by
  have h1 : l.dropWhile pyIsSpaceChar = [] := by
    have := @dropWhile_append_all l [] h
    simpa using this
  simp [pyStrip, h1]

/-- Stripping a non-space-delimited core surrounded by whitespace yields
    exactly the core. -/
theorem pyStrip_sandwich {w1 w2 : List Char} (a d : Char) (mid : List Char)
    (h1 : ∀ c ∈ w1, pyIsSpaceChar c = true)
    (h2 : ∀ c ∈ w2, pyIsSpaceChar c = true)
    (ha : pyIsSpaceChar a = false) (hd : pyIsSpaceChar d = false) :
    pyStrip (w1 ++ (a :: (mid ++ [d])) ++ w2) = a :: (mid ++ [d]) := by
  unfold pyStrip
  have step1 : (w1 ++ (a :: (mid ++ [d])) ++ w2).dropWhile pyIsSpaceChar =
      a :: (mid ++ [d] ++ w2) := by
    rw [List.append_assoc, dropWhile_append_all h1]
    rw [show (a :: (mid ++ [d])) ++ w2 = a :: (mid ++ [d] ++ w2) by simp]
    exact dropWhile_cons_not _ ha
  rw [step1]
  have h2r : ∀ c ∈ w2.reverse, pyIsSpaceChar c = true := by
    intro c hc
    exact h2 c (List.mem_reverse.mp hc)
  have step2 : (a :: (mid ++ [d] ++ w2)).reverse.dropWhile pyIsSpaceChar =
      d :: (mid.reverse ++ [a]) := by
    have hrev : (a :: (mid ++ [d] ++ w2)).reverse =
        w2.reverse ++ (d :: (mid.reverse ++ [a])) := by
      simp
    rw [hrev, dropWhile_append_all h2r]
    exact dropWhile_cons_not _ hd
  rw [step2]
  simp

/-! ### Claim C7 -/

/-- C7: the termination predicate `is_termination_message` returns true if
    and only if the uppercased message content contains the uppercase
    literal marker, i.e. the content contains the marker
    case-insensitively. -/
theorem C7_termination_iff (m : ChatMessage) :
    is_termination_message m = true ↔
      ∃ pre post, pyUpper (msgContent m) = pre ++ TERMINATION_MARKER ++ post := by
  unfold is_termination_message
  exact containsSub_iff

/-! ### Claim C1 -/

/-- C1 counterexample: on the transcript whose single message is
    `CHECKING PRODUCTS BASED ON: A CHECKING PRODUCTS BASED ON: B`, the
    text following the first occurrence of the split marker is
    `A CHECKING PRODUCTS BASED ON: B` (the content is the marker followed
    by exactly that text), yet extraction returns `B`: the source takes
    the text after the last occurrence, not the first. -/
theorem C1_counterexample :
    containsSub SPLIT_MARKER (msgContent c1msg) = true ∧
    msgContent c1msg = SPLIT_MARKER ++ afterFirstText ∧
    extract_preferences_from_messages [c1msg] = some afterLastText ∧
    extract_preferences_from_messages [c1msg] ≠ some afterFirstText := by
  refine ⟨by decide, by decide, by decide, by decide⟩

/-- C1 (amended): for every transcript, extraction looks at the first
    message whose content contains the detection literal
    `CHECKING PRODUCTS BASED ON:`; when that message also contains the
    split literal `CHECKING PRODUCTS BASED ON: ` (case-sensitively), the
    returned text is the text following the LAST consumed occurrence of
    the split literal in that message: the content decomposes as
    `pre ++ marker ++ r` with no further occurrence of the marker in
    `r`. -/
theorem C1_last_occurrence (before after : List ChatMessage) (m : ChatMessage)
    (hbefore : ∀ b ∈ before, containsSub DETECT_MARKER (msgContent b) = false)
    (hm : containsSub SPLIT_MARKER (msgContent m) = true) :
    ∃ r pre, extract_preferences_from_messages (before ++ m :: after) = some r ∧
      msgContent m = pre ++ SPLIT_MARKER ++ r ∧
      containsSub SPLIT_MARKER r = false := by
  have hdet := detect_of_split hm
  have hsep : SPLIT_MARKER ≠ [] := by decide
  obtain ⟨hlen2, pre, hdec, hlast⟩ :=
    pySplitF_last_spec SPLIT_MARKER hsep ((msgContent m).length + 1) (msgContent m)
      (Nat.lt_succ_self _) hm
  refine ⟨pyLast (pySplitOn SPLIT_MARKER (msgContent m)), pre,
    extract_first_hit before after m hbefore hdet, ?_, ?_⟩
  · rw [pySplitOn_of_ne_nil hsep]
    exact hdec
  · rw [pySplitOn_of_ne_nil hsep]
    exact hlast

/-- C1 witness: the amended statement applied to the concrete
    double-marker transcript. -/
theorem C1_last_occurrence_witness :
    containsSub SPLIT_MARKER (msgContent c1msg) = true ∧
    (∃ r pre, extract_preferences_from_messages [c1msg] = some r ∧
      msgContent c1msg = pre ++ SPLIT_MARKER ++ r ∧
      containsSub SPLIT_MARKER r = false) := by
  constructor
  · decide
  · have h := C1_last_occurrence [] [] c1msg (by simp) (by decide)
    simpa using h

/-! ### Claim C8 -/

/-- C8: when the first message containing the detection literal
    `CHECKING PRODUCTS BASED ON:` does not contain the longer split
    literal `CHECKING PRODUCTS BASED ON: ` (marker plus trailing space),
    extraction returns that message's entire content unchanged. -/
theorem C8_detect_without_space (before after : List ChatMessage) (m : ChatMessage)
    (hbefore : ∀ b ∈ before, containsSub DETECT_MARKER (msgContent b) = false)
    (hdet : containsSub DETECT_MARKER (msgContent m) = true)
    (hnospace : containsSub SPLIT_MARKER (msgContent m) = false) :
    extract_preferences_from_messages (before ++ m :: after) = some (msgContent m) := by
  rw [extract_first_hit before after m hbefore hdet]
  have hsep : SPLIT_MARKER ≠ [] := by decide
  rw [pySplitOn_of_ne_nil hsep]
  rw [pySplitF_no_occurrence SPLIT_MARKER _ _ (Nat.lt_succ_self _) hnospace]
  rfl

/-- C8 witness: the statement applied to the concrete transcript whose
    one message contains the colon marker with no trailing space. -/
theorem C8_detect_without_space_witness :
    containsSub DETECT_MARKER (msgContent c8msg) = true ∧
    containsSub SPLIT_MARKER (msgContent c8msg) = false ∧
    extract_preferences_from_messages [c8msg] = some noSpaceMarkerContent := by
  refine ⟨by decide, by decide, ?_⟩
  have h := C8_detect_without_space [] [] c8msg (by simp) (by decide) (by decide)
  simpa [c8msg, msgContent] using h

/-! ### Claim C3 -/

/-- C3: when no message of the collector transcript contains the
    detection literal, extraction returns none and the run halts before
    retrieval: the printed output is exactly the failure message, the
    retriever is never invoked and no recommendation is produced. -/
theorem C3_no_marker_halts (env : FlowEnv) (input : List Char) (msgs : List ChatMessage)
    (hreset : env.resetOutcome = none)
    (hcol : env.collectorExchange input = Except.ok msgs)
    (hnom : ∀ m ∈ msgs, containsSub DETECT_MARKER (msgContent m) = false) :
    extract_preferences_from_messages msgs = none ∧
    groupchat_product_recommendation_flow env input =
      [Event.resetCalled, Event.collectorCalled input, Event.printed UNABLE_MSG] ∧
    (∀ pr, Event.retrieverCalled pr ∉ groupchat_product_recommendation_flow env input) ∧
    (∀ fm, Event.composerCalled fm ∉ groupchat_product_recommendation_flow env input) := by
  have hex : extract_preferences_from_messages msgs = none := extract_eq_none hnom
  have hflow : groupchat_product_recommendation_flow env input =
      [Event.resetCalled, Event.collectorCalled input, Event.printed UNABLE_MSG] := by
    simp [groupchat_product_recommendation_flow, flowBody, hreset, hcol, hex]
  refine ⟨hex, hflow, ?_, ?_⟩ <;> intro x <;> rw [hflow] <;> simp

/-- C3 witness: a concrete environment whose collector exchange returns
    one marker-free message. -/
theorem C3_no_marker_halts_witness :
    extract_preferences_from_messages [ChatMessage.mk (some helloContent)] = none ∧
    groupchat_product_recommendation_flow env3 hiLine =
      [Event.resetCalled, Event.collectorCalled hiLine, Event.printed UNABLE_MSG] := by
  have h := C3_no_marker_halts env3 hiLine [ChatMessage.mk (some helloContent)] rfl rfl
    (by decide)
  exact ⟨h.1, h.2.1⟩

/-! ### Claim C4 -/

/-- Shared lemma: the exact run trace when the retrieval stage yields an
    empty or absent last-message content. -/
theorem flow_no_products (env : FlowEnv) (input p : List Char) (msgs : List ChatMessage)
    (r : Option ChatResult)
    (hreset : env.resetOutcome = none)
    (hcol : env.collectorExchange input = Except.ok msgs)
    (hex : extract_preferences_from_messages msgs = some p)
    (hp : p ≠ [])
    (hr : env.retrieverExchange (RETRIEVAL_PROBLEM_LABEL ++ p) = Except.ok r)
    (hempty : get_last_message_content r = none ∨ get_last_message_content r = some []) :
    groupchat_product_recommendation_flow env input =
      [Event.resetCalled, Event.collectorCalled input,
       Event.printed (USER_PREFS_LABEL ++ p),
       Event.retrieverCalled (RETRIEVAL_PROBLEM_LABEL ++ p),
       Event.printed NO_PRODUCTS_MSG] := by
  obtain ⟨c, cs, rfl⟩ : ∃ c cs, p = c :: cs := by
    cases p with
    | nil => exact absurd rfl hp
    | cons c cs => exact ⟨c, cs, rfl⟩
  rcases hempty with he | he <;>
    simp [groupchat_product_recommendation_flow, flowBody, hreset, hcol, hex, hr, he]

/-- C4: when the retrieval stage yields an empty or absent result, the
    Coordinator prints the no-products message, never calls the Composer,
    and the run ends with no recommendation: its trace is exactly the
    five events up to and including that message. -/
theorem C4_empty_retrieval_aborts (env : FlowEnv) (input p : List Char)
    (msgs : List ChatMessage) (r : Option ChatResult)
    (hreset : env.resetOutcome = none)
    (hcol : env.collectorExchange input = Except.ok msgs)
    (hex : extract_preferences_from_messages msgs = some p)
    (hp : p ≠ [])
    (hr : env.retrieverExchange (RETRIEVAL_PROBLEM_LABEL ++ p) = Except.ok r)
    (hempty : get_last_message_content r = none ∨ get_last_message_content r = some []) :
    groupchat_product_recommendation_flow env input =
      [Event.resetCalled, Event.collectorCalled input,
       Event.printed (USER_PREFS_LABEL ++ p),
       Event.retrieverCalled (RETRIEVAL_PROBLEM_LABEL ++ p),
       Event.printed NO_PRODUCTS_MSG] ∧
    (∀ fm, Event.composerCalled fm ∉ groupchat_product_recommendation_flow env input) := by
  have hflow := flow_no_products env input p msgs r hreset hcol hex hp hr hempty
  refine ⟨hflow, ?_⟩
  intro fm
  rw [hflow]
  simp

/-- C4 witness: a concrete environment whose retriever exchange returns
    an absent chat result. -/
theorem C4_empty_retrieval_aborts_witness :
    extract_preferences_from_messages [ChatMessage.mk (some markerShirtContent)] =
      some shirtPrefs ∧
    groupchat_product_recommendation_flow env4 hiLine =
      [Event.resetCalled, Event.collectorCalled hiLine,
       Event.printed (USER_PREFS_LABEL ++ shirtPrefs),
       Event.retrieverCalled (RETRIEVAL_PROBLEM_LABEL ++ shirtPrefs),
       Event.printed NO_PRODUCTS_MSG] := by
  refine ⟨by decide, ?_⟩
  have h := C4_empty_retrieval_aborts env4 hiLine shirtPrefs
    [ChatMessage.mk (some markerShirtContent)] none rfl rfl (by decide) (by decide) rfl
    (Or.inl rfl)
  exact h.1

/-! ### Claim C9 -/

/-- C9: `get_last_message_content` returns none exactly when the chat
    result is absent or its history is empty; on a non-empty history it
    returns the last message's content with the empty string as default;
    and both the none and empty-string outcomes make the Coordinator
    print the no-products message and skip the Composer. -/
theorem C9_last_message_content :
    (∀ r : Option ChatResult,
      get_last_message_content r = none ↔
        r = none ∨ r = some (ChatResult.mk [])) ∧
    (∀ (res : ChatResult) (m : ChatMessage), res.chat_history.getLast? = some m →
      get_last_message_content (some res) = some (m.content.getD [])) ∧
    (∀ (env : FlowEnv) (input p : List Char) (msgs : List ChatMessage)
        (r : Option ChatResult),
      env.resetOutcome = none →
      env.collectorExchange input = Except.ok msgs →
      extract_preferences_from_messages msgs = some p → p ≠ [] →
      env.retrieverExchange (RETRIEVAL_PROBLEM_LABEL ++ p) = Except.ok r →
      (get_last_message_content r = none ∨ get_last_message_content r = some []) →
      Event.printed NO_PRODUCTS_MSG ∈ groupchat_product_recommendation_flow env input ∧
      (∀ fm, Event.composerCalled fm ∉ groupchat_product_recommendation_flow env input)) := by
  refine ⟨?_, ?_, ?_⟩
  · intro r
    cases r with
    | none => simp [get_last_message_content]
    | some res =>
      obtain ⟨hist⟩ := res
      cases hist with
      | nil => simp [get_last_message_content]
      | cons a l =>
        have hs : ((a :: l).getLast?).isSome := List.getLast?_isSome.mpr (by simp)
        obtain ⟨m, hm⟩ := Option.isSome_iff_exists.mp hs
        simp [get_last_message_content, hm]
  · intro res m hm
    simp [get_last_message_content, hm]
  · intro env input p msgs r hreset hcol hex hp hr hempty
    have hflow := flow_no_products env input p msgs r hreset hcol hex hp hr hempty
    rw [hflow]
    constructor
    · simp
    · intro fm
      simp

/-- C9 witness: the characterization applied to a concrete one-message
    history, and the abort behaviour applied to a concrete environment
    whose retriever exchange returns an absent result. -/
theorem C9_last_message_content_witness :
    get_last_message_content
        (some (ChatResult.mk [ChatMessage.mk (some helloContent)])) =
      some helloContent ∧
    Event.printed NO_PRODUCTS_MSG ∈ groupchat_product_recommendation_flow env4 hiLine := by
  constructor
  · have h := C9_last_message_content.2.1
      (ChatResult.mk [ChatMessage.mk (some helloContent)])
      (ChatMessage.mk (some helloContent)) (by decide)
    simpa using h
  · exact (C9_last_message_content.2.2 env4 hiLine shirtPrefs
      [ChatMessage.mk (some markerShirtContent)] none rfl rfl (by decide) (by decide) rfl
      (Or.inl rfl)).1

/-! ### Claim C5 -/

/-- When the `try` body of the flow raises, the `except` clause catches
    it and appends the error report to the run's output. -/
theorem flow_err (env : FlowEnv) (input : List Char) (e : PyErr)
    (herr : (flowBody env input).2 = some e) :
    groupchat_product_recommendation_flow env input =
      (flowBody env input).1 ++ [Event.printed (ERR_LABEL ++ e)] := by
  cases hfb : flowBody env input with
  | mk evs oe =>
    rw [hfb] at herr
    cases oe with
    | none => simp at herr
    | some e2 =>
      simp only [Option.some.injEq] at herr
      subst herr
      simp [groupchat_product_recommendation_flow, hfb]

/-- C5: any exception raised inside one pipeline run (reset included) is
    caught at the top level of that run: the run's output is its partial
    trace followed by the error report, and the session loop then
    continues with the remaining input lines instead of terminating. -/
theorem C5_exception_caught (env : FlowEnv) (line : List Char) (rest : List (List Char))
    (e : PyErr)
    (hexit : ¬(pyLower (pyStrip line) = EXIT_KW ∨ pyLower (pyStrip line) = QUIT_KW))
    (hne : pyStrip line ≠ [])
    (herr : (flowBody env (pyStrip line)).2 = some e) :
    groupchat_product_recommendation_flow env (pyStrip line) =
      (flowBody env (pyStrip line)).1 ++ [Event.printed (ERR_LABEL ++ e)] ∧
    main_loop env (line :: rest) =
      SessEvent.flowRun (pyStrip line)
        (groupchat_product_recommendation_flow env (pyStrip line)) ::
        main_loop env rest := by
  refine ⟨flow_err env (pyStrip line) e herr, ?_⟩
  simp only [main_loop]
  rw [if_neg hexit, if_neg hne]

/-- C5 witness: an environment whose `reset_agents` call raises; the loop
    reports the error and terminates the run only. -/
theorem C5_exception_caught_witness :
    (flowBody env5 (pyStrip hiLine)).2 = some boomMsg ∧
    main_loop env5 [hiLine] =
      [SessEvent.flowRun hiLine
        [Event.resetCalled, Event.printed (ERR_LABEL ++ boomMsg)]] := by
  constructor
  · decide
  · have h := C5_exception_caught env5 hiLine [] boomMsg (by decide) (by decide) (by decide)
    refine h.2.trans ?_
    decide

/-! ### Claim C6 -/

/-- C6 counterexample: the raw input line `  QUIT  ` is non-empty and
    does not equal `exit` or `quit` case-insensitively, so the claimed
    trichotomy requires the Coordinator to run once for it; the loop
    instead strips the line, matches the quit keyword and terminates
    without any pipeline run. -/
theorem C6_counterexample :
    paddedQuitLine ≠ [] ∧
    pyLower paddedQuitLine ≠ EXIT_KW ∧
    pyLower paddedQuitLine ≠ QUIT_KW ∧
    main_loop env0 [paddedQuitLine] = [SessEvent.printedS GOODBYE_MSG] ∧
    flowRunCount (main_loop env0 [paddedQuitLine]) = 0 := by
  refine ⟨by decide, by decide, by decide, by decide, by decide⟩

/-- C6 (amended): the loop classifies each input line after stripping
    leading and trailing whitespace: if the stripped line equals `exit`
    or `quit` case-insensitively, the loop prints the goodbye message and
    terminates without invoking the Coordinator; if the stripped line is
    empty, the loop re-prompts without invoking the Coordinator;
    otherwise the Coordinator is invoked exactly once, on the stripped
    line. -/
theorem C6_line_classification (env : FlowEnv) (line : List Char) (rest : List (List Char)) :
    ((pyLower (pyStrip line) = EXIT_KW ∨ pyLower (pyStrip line) = QUIT_KW) →
      main_loop env (line :: rest) = [SessEvent.printedS GOODBYE_MSG] ∧
      flowRunCount (main_loop env (line :: rest)) = 0) ∧
    (¬(pyLower (pyStrip line) = EXIT_KW ∨ pyLower (pyStrip line) = QUIT_KW) →
      pyStrip line = [] →
      main_loop env (line :: rest) =
        SessEvent.printedS REPROMPT_MSG :: main_loop env rest ∧
      flowRunCount (main_loop env (line :: rest)) =
        flowRunCount (main_loop env rest)) ∧
    (¬(pyLower (pyStrip line) = EXIT_KW ∨ pyLower (pyStrip line) = QUIT_KW) →
      pyStrip line ≠ [] →
      main_loop env (line :: rest) =
        SessEvent.flowRun (pyStrip line)
          (groupchat_product_recommendation_flow env (pyStrip line)) ::
          main_loop env rest ∧
      flowRunCount (main_loop env (line :: rest)) =
        flowRunCount (main_loop env rest) + 1) := by
  refine ⟨?_, ?_, ?_⟩
  · intro h
    have hm : main_loop env (line :: rest) = [SessEvent.printedS GOODBYE_MSG] := by
      simp only [main_loop]
      rw [if_pos h]
    exact ⟨hm, by rw [hm]; rfl⟩
  · intro h he
    have hm : main_loop env (line :: rest) =
        SessEvent.printedS REPROMPT_MSG :: main_loop env rest := by
      simp only [main_loop]
      rw [if_neg h, if_pos he]
    exact ⟨hm, by rw [hm]; rfl⟩
  · intro h he
    have hm : main_loop env (line :: rest) =
        SessEvent.flowRun (pyStrip line)
          (groupchat_product_recommendation_flow env (pyStrip line)) ::
          main_loop env rest := by
      simp only [main_loop]
      rw [if_neg h, if_neg he]
    exact ⟨hm, by rw [hm]; rfl⟩

/-- C6 witness: each branch of the amended classification at a concrete
    input line. -/
theorem C6_line_classification_witness :
    main_loop env0 [paddedQuitLine] = [SessEvent.printedS GOODBYE_MSG] ∧
    main_loop env0 [threeBlanksLine] = [SessEvent.printedS REPROMPT_MSG] ∧
    flowRunCount (main_loop env0 [helloLine]) = 1 := by
  refine ⟨?_, ?_, ?_⟩
  · exact ((C6_line_classification env0 paddedQuitLine []).1 (by decide)).1
  · have h := ((C6_line_classification env0 threeBlanksLine []).2.1 (by decide) (by decide)).1
    exact h.trans rfl
  · have h := ((C6_line_classification env0 helloLine []).2.2 (by decide) (by decide)).2
    exact h.trans rfl

/-! ### Claim C10 -/

theorem pyIsSpaceChar_toLower_self {c : Char} (h : pyIsSpaceChar c = true) :
    Char.toLower c = c := by
  simp only [pyIsSpaceChar, Bool.or_eq_true, decide_eq_true_eq] at h
  rcases h with ((((h | h) | h) | h) | h) | h <;> subst h <;> decide

theorem not_space_of_toLower {c x : Char} (hcx : Char.toLower c = x)
    (hx : pyIsSpaceChar x = false) : pyIsSpaceChar c = false := by
  cases h : pyIsSpaceChar c with
  | false => rfl
  | true =>
    exfalso
    rw [pyIsSpaceChar_toLower_self h] at hcx
    subst hcx
    rw [h] at hx
    simp at hx

theorem map_toLower_four {kw : List Char} {a b c d : Char}
    (h : pyLower kw = [a, b, c, d]) :
    ∃ k1 k2 k3 k4, kw = [k1, k2, k3, k4] ∧ Char.toLower k1 = a ∧ Char.toLower k4 = d := by
  unfold pyLower at h
  cases kw with
  | nil => simp at h
  | cons k1 t1 =>
    cases t1 with
    | nil => simp at h
    | cons k2 t2 =>
      cases t2 with
      | nil => simp at h
      | cons k3 t3 =>
        cases t3 with
        | nil => simp at h
        | cons k4 t4 =>
          cases t4 with
          | nil =>
            simp only [List.map_cons, List.map_nil, List.cons.injEq, and_true] at h
            exact ⟨k1, k2, k3, k4, rfl, h.1, h.2.2.2⟩
          | cons k5 t5 => simp at h

theorem exit_kw_chars : EXIT_KW = ['e', 'x', 'i', 't'] := by decide

theorem quit_kw_chars : QUIT_KW = ['q', 'u', 'i', 't'] := by decide

/-- C10: the session loop strips leading and trailing whitespace before
    classifying a line: a line consisting only of whitespace is treated
    as empty input (re-prompt, no Coordinator call), and an exit keyword
    surrounded by whitespace in any letter case terminates the
    session. -/
theorem C10_whitespace_stripping (env : FlowEnv) (rest : List (List Char)) :
    (∀ line, line ≠ [] → (∀ c ∈ line, pyIsSpaceChar c = true) →
      main_loop env (line :: rest) =
        SessEvent.printedS REPROMPT_MSG :: main_loop env rest ∧
      flowRunCount (main_loop env (line :: rest)) =
        flowRunCount (main_loop env rest)) ∧
    (∀ w1 w2 kw, (∀ c ∈ w1, pyIsSpaceChar c = true) →
      (∀ c ∈ w2, pyIsSpaceChar c = true) →
      (pyLower kw = EXIT_KW ∨ pyLower kw = QUIT_KW) →
      main_loop env ((w1 ++ kw ++ w2) :: rest) = [SessEvent.printedS GOODBYE_MSG]) := by
  constructor
  · intro line hne hsp
    have hstrip : pyStrip line = [] := pyStrip_all_space hsp
    have hm : main_loop env (line :: rest) =
        SessEvent.printedS REPROMPT_MSG :: main_loop env rest := by
      simp only [main_loop]
      rw [hstrip]
      rw [if_neg (by decide), if_pos rfl]
    exact ⟨hm, by rw [hm]; rfl⟩
  · intro w1 w2 kw h1 h2 hkw
    have hfour : ∃ k1 k2 k3 k4, kw = [k1, k2, k3, k4] ∧
        pyIsSpaceChar k1 = false ∧ pyIsSpaceChar k4 = false := by
      rcases hkw with hk | hk
      · rw [exit_kw_chars] at hk
        obtain ⟨k1, k2, k3, k4, hkw4, hl1, hl4⟩ := map_toLower_four hk
        exact ⟨k1, k2, k3, k4, hkw4,
          not_space_of_toLower hl1 (by decide), not_space_of_toLower hl4 (by decide)⟩
      · rw [quit_kw_chars] at hk
        obtain ⟨k1, k2, k3, k4, hkw4, hl1, hl4⟩ := map_toLower_four hk
        exact ⟨k1, k2, k3, k4, hkw4,
          not_space_of_toLower hl1 (by decide), not_space_of_toLower hl4 (by decide)⟩
    obtain ⟨k1, k2, k3, k4, hkw4, hs1, hs4⟩ := hfour
    have hstrip : pyStrip (w1 ++ kw ++ w2) = kw := by
      rw [hkw4]
      have := pyStrip_sandwich k1 k4 [k2, k3] h1 h2 hs1 hs4
      simpa using this
    simp only [main_loop]
    rw [hstrip]
    rw [if_pos hkw]

/-- C10 witness: a whitespace-only line re-prompts and a whitespace-padded
    mixed-case quit keyword ends the session. -/
theorem C10_whitespace_stripping_witness :
    main_loop env0 [oneBlank] = [SessEvent.printedS REPROMPT_MSG] ∧
    main_loop env0 [twoBlanks ++ quitMixedCase ++ oneBlank] =
      [SessEvent.printedS GOODBYE_MSG] := by
  constructor
  · have h := ((C10_whitespace_stripping env0 []).1 oneBlank (by decide) (by decide)).1
    exact h.trans rfl
  · exact (C10_whitespace_stripping env0 []).2 twoBlanks oneBlank quitMixedCase
      (by decide) (by decide) (by decide)
